import Mathlib

/-!
Verification of the smolbot conversation cache and dispatch scheduler core.

Shallow embedding of the repository sources:
* `src/types.ts`                                    — data model
* `src/handlers/cache/ChannelCacheManager.ts`       — bounded per-channel cache
* `src/utils/RateLimiter.ts`                        — token-bucket rate limiter
* `src/groqApi.ts`                                  — fixed-window request
  limiter (`RequestRateLimiter`) and the model-fallback chain
  (`executeWithFallback`, in its env-gated and rate-limit-only variants)
* `src/handlers/message/BotInteractionQueue.ts`     — dispatch queue ordering
* `src/handlers/message/ContextBuilder.ts`          — transcript assembly

JavaScript `Date.now()` values and durations are embedded as `Int`
(milliseconds); JavaScript arrays as `List`; the `Map` of channel caches as an
association list; promise rejection of a collaborator call as `Except`.
`Array.prototype.sort` is stable (ECMA-262) and the comparators used by the
sources are consistent total preorders, so a sort call is embedded as the
stable insertion sort over the comparator order.
-/

namespace Smol

/-- `src/types.ts` — analysis results for one image. -/
structure ImageAnalysis where
  lightAnalysis : String
  detailedAnalysis : Option String
  url : String
deriving DecidableEq, Repr

/-- `src/types.ts` — a cached message. `timestamp` is the `Date` in ms. -/
structure CachedMessage where
  id : String
  content : String
  authorId : String
  authorName : String
  timestamp : Int
  images : List ImageAnalysis
  referencedMessage : Option String
deriving DecidableEq, Repr

/-- `src/types.ts` — the message cache for a channel. -/
structure ChannelCache where
  messages : List CachedMessage
  lastMessageId : Option String
deriving DecidableEq, Repr

/-- `src/handlers/cache/types.ts` — cache configuration. -/
structure ChannelCacheOptions where
  maxSize : Nat
deriving DecidableEq, Repr

/-- `src/handlers/cache/types.ts` — the `CacheEvents` emitted by the manager. -/
inductive CacheEvent where
  | messageAdded (channelId : String) (message : CachedMessage)
  | messageRemoved (channelId : String) (message : CachedMessage)
  | cacheCleared (channelId : String)
deriving DecidableEq, Repr

namespace ChannelCacheManager

/-- The `caches : Map<string, ChannelCache>` field, as an association list. -/
abbrev Caches := List (String × ChannelCache)

/-- `Map.get` on the association list. -/
def cachesGet : Caches → String → Option ChannelCache
  | [], _ => none
  | (k, v) :: rest, key => if k = key then some v else cachesGet rest key

/-- `Map.set` on the association list. -/
def cachesSet : Caches → String → ChannelCache → Caches
  | [], key, v => [(key, v)]
  | (k, w) :: rest, key, v =>
      if k = key then (key, v) :: rest else (k, w) :: cachesSet rest key v

/-- The cache `addMessage` works on: the existing entry, or the fresh
`{ messages: [] }` it creates for a channel not seen before. -/
def cacheOrDefault (caches : Caches) (channelId : String) : ChannelCache :=
  (cachesGet caches channelId).getD { messages := [], lastMessageId := none }

/-- Everything `ChannelCacheManager.addMessage` produces: the updated map, the
events emitted, whether the persistence failure was logged, and the outcome the
caller of the returned promise observes. -/
structure AddMessageResult where
  caches : Caches
  events : List CacheEvent
  persistErrorLogged : Bool
  outcome : Except String Unit
deriving Repr

/-- Lines 80-89 of `addMessage`: the in-memory push with its `MESSAGE_ADDED`
emit, then the size maintenance — when the pushed list exceeds `maxSize` the
head is shifted off and `MESSAGE_REMOVED` is emitted for it. -/
def appendEvict (options : ChannelCacheOptions) (cache : ChannelCache)
    (channelId : String) (message : CachedMessage) :
    ChannelCache × List CacheEvent :=
  let pushed : ChannelCache := { cache with messages := cache.messages ++ [message] }
  let addEv := [CacheEvent.messageAdded channelId message]
  if options.maxSize < pushed.messages.length then
    match pushed.messages with
    | [] => (pushed, addEv)
    | removed :: rest =>
        ({ pushed with messages := rest },
         addEv ++ [CacheEvent.messageRemoved channelId removed])
  else (pushed, addEv)

/-- `ChannelCacheManager.addMessage` (ChannelCacheManager.ts:72-97).
The in-memory push, the `MESSAGE_ADDED` emit, the size maintenance with its
`MESSAGE_REMOVED` emit all happen before the `saveChannelCache` call; the save
is wrapped in try/catch, a failure being logged and not rethrown.
`saveResult` is the outcome of the persistence collaborator call. -/
def addMessage (options : ChannelCacheOptions) (caches₀ : Caches)
    (channelId : String) (message : CachedMessage)
    (saveResult : Except String Unit) : AddMessageResult :=
  let cache := cacheOrDefault caches₀ channelId
  let ae := appendEvict options cache channelId message
  let caches₁ := cachesSet caches₀ channelId ae.1
  match saveResult with
  | Except.ok _ => ⟨caches₁, ae.2, false, Except.ok ()⟩
  | Except.error _ => ⟨caches₁, ae.2, true, Except.ok ()⟩

/-- A sequence of appends (the persistence calls all succeeding). -/
def applyOps (options : ChannelCacheOptions) :
    List (String × CachedMessage) → Caches → Caches
  | [], cs => cs
  | (ch, m) :: rest, cs =>
      applyOps options rest (addMessage options cs ch m (Except.ok ())).caches

/-- The `i`-th message of the C1 end-to-end scenario (`m1..m25`). -/
def mkMsg (i : Nat) : CachedMessage :=
  { id := "m" ++ toString i, content := "content " ++ toString i,
    authorId := "author", authorName := "name", timestamp := Int.ofNat i,
    images := [], referencedMessage := none }

/-- The 25 sequential appends of the C1 scenario. -/
def scenarioOps : List (String × CachedMessage) :=
  (List.range 25).map (fun i => ("chan", mkMsg (i + 1)))

end ChannelCacheManager

/-- Admission events observed by rate-limiter waiters: a waiter either has its
promise resolved (granted) or rejected with the maximum-wait error. -/
inductive RLEvent where
  | granted (id : Nat)
  | rejected (id : Nat)
deriving DecidableEq, Repr

namespace RequestRateLimiter

/-- State of `RequestRateLimiter` (groqApi.ts:22-40): the fixed-window counter,
the window start, and the FIFO queue of waiters (waiter id, enqueue time). -/
structure RLState where
  requestsThisMinute : Nat
  minuteStartTime : Int
  requestQueue : List (Nat × Int)
deriving DecidableEq, Repr

/-- `RequestRateLimiter.checkMinuteReset` (groqApi.ts:106-121): when at least a
whole window has elapsed the counter is zeroed and the window start is moved to
`now - (elapsed % 60000)`, i.e. forward by a whole number of windows. -/
def checkMinuteReset (now : Int) (s : RLState) : RLState :=
  let timeElapsed := now - s.minuteStartTime
  if 60000 ≤ timeElapsed then
    { s with requestsThisMinute := 0, minuteStartTime := now - timeElapsed % 60000 }
  else s

/-- `RequestRateLimiter.waitForToken` (groqApi.ts:46-66) up to its first
suspension point: reset check, then either an immediate grant (counter bumped,
promise resolved synchronously — result `true`) or a FIFO enqueue of the
caller (result `false`). -/
def waitForToken (maxReq : Nat) (id : Nat) (now : Int) (s₀ : RLState) :
    RLState × Bool :=
  let s := checkMinuteReset now s₀
  if s.requestsThisMinute < maxReq then
    ({ s with requestsThisMinute := s.requestsThisMinute + 1 }, true)
  else
    ({ s with requestQueue := s.requestQueue ++ [(id, now)] }, false)

/-- One iteration of the `processQueue` drain loop (groqApi.ts:71-101) taken at
time `now`: nothing happens on an empty queue; after the reset check a full
window sleeps (the `setTimeout` branch, no event); otherwise the FIFO head is
rejected when it has waited at least five minutes and granted (consuming a
slot) otherwise. -/
def processStep (maxReq : Nat) (now : Int) (s₀ : RLState) :
    RLState × Option RLEvent :=
  match s₀.requestQueue with
  | [] => (s₀, none)
  | (id, ts) :: rest =>
      -- the reset never touches the queue, so the head read after the reset
      -- check in the source is the head of the incoming queue
      let s := checkMinuteReset now s₀
      if maxReq ≤ s.requestsThisMinute then (s, none)
      else if 300000 ≤ now - ts then
        ({ s with requestQueue := rest }, some (RLEvent.rejected id))
      else
        ({ s with requestQueue := rest,
                  requestsThisMinute := s.requestsThisMinute + 1 },
         some (RLEvent.granted id))

/-- Run the drain loop at the given sequence of iteration times, collecting the
waiter events. -/
def runSteps (maxReq : Nat) : List Int → RLState → RLState × List RLEvent
  | [], s => (s, [])
  | now :: later, s =>
      let r := processStep maxReq now s
      let rest := runSteps maxReq later r.1
      (rest.1, r.2.toList ++ rest.2)

/-- A burst of `acquire()` calls: fold `waitForToken` over the given
`(id, time)` list, collecting which callers resolved immediately and which were
queued. -/
def acquireAll (maxReq : Nat) :
    List (Nat × Int) → RLState → RLState × List Nat × List Nat
  | [], s => (s, [], [])
  | (id, now) :: rest, s =>
      let r := waitForToken maxReq id now s
      let f := acquireAll maxReq rest r.1
      (f.1, (if r.2 then [id] else []) ++ f.2.1,
            (if r.2 then [] else [id]) ++ f.2.2)

end RequestRateLimiter

namespace RateLimiter

/-- `RateLimiterOptions` (utils/RateLimiter.ts:5-9). -/
structure RateLimiterOptions where
  tokensPerInterval : Int
  intervalMs : Int
  maxTokens : Int
deriving DecidableEq, Repr

/-- State of the utils `RateLimiter`: the token count, the last refill time and
the FIFO queue of waiters (waiter id, enqueue time). -/
structure TBState where
  tokens : Int
  lastRefill : Int
  requestQueue : List (Nat × Int)
deriving DecidableEq, Repr

/-- Constructor state (utils/RateLimiter.ts:27-31): a full bucket. -/
def initState (o : RateLimiterOptions) (start : Int) : TBState :=
  { tokens := o.maxTokens, lastRefill := start, requestQueue := [] }

/-- `RateLimiter.refillTokens` (utils/RateLimiter.ts:36-50).
`Math.floor` of the elapsed-time proration is `Int.fdiv`; the count is capped
at `maxTokens` and `lastRefill` only moves when at least one token is added. -/
def refillTokens (o : RateLimiterOptions) (now : Int) (s : TBState) : TBState :=
  let timePassed := now - s.lastRefill
  let tokensToAdd := Int.fdiv (timePassed * o.tokensPerInterval) o.intervalMs
  if 0 < tokensToAdd then
    { s with tokens := min o.maxTokens (s.tokens + tokensToAdd), lastRefill := now }
  else s

/-- `RateLimiter.waitForToken` (utils/RateLimiter.ts:100-113) up to its first
suspension point: the caller is appended to the FIFO queue. -/
def waitForToken (id : Nat) (now : Int) (s : TBState) : TBState :=
  { s with requestQueue := s.requestQueue ++ [(id, now)] }

/-- One iteration of the `processQueue` drain loop (utils/RateLimiter.ts:55-94)
taken at time `now`: refill, sleep while no token is available (no event),
otherwise reject the FIFO head after five minutes of waiting and grant it
(decrementing the count) before that. The decrement only happens under the
`0 < tokens` guard. -/
def processStep (o : RateLimiterOptions) (now : Int) (s₀ : TBState) :
    TBState × Option RLEvent :=
  match s₀.requestQueue with
  | [] => (s₀, none)
  | (id, ts) :: rest =>
      -- the refill never touches the queue, so the head read after the token
      -- check in the source is the head of the incoming queue
      let s := refillTokens o now s₀
      if s.tokens ≤ 0 then (s, none)
      else if 300000 ≤ now - ts then
        ({ s with requestQueue := rest }, some (RLEvent.rejected id))
      else
        ({ s with requestQueue := rest, tokens := s.tokens - 1 },
         some (RLEvent.granted id))

/-- `RateLimiter.getStatus` (utils/RateLimiter.ts:118-124) refills and reports;
only its refill matters for the token-count invariant. -/
def getStatus (o : RateLimiterOptions) (now : Int) (s : TBState) :
    TBState × Int × Nat :=
  let s := refillTokens o now s
  (s, s.tokens, s.requestQueue.length)

/-- The operations that touch the token count or the queue. -/
inductive TBOp where
  | wait (id : Nat) (now : Int)
  | step (now : Int)
  | status (now : Int)
deriving DecidableEq, Repr

/-- Apply one operation to the state. -/
def applyOp (o : RateLimiterOptions) (s : TBState) : TBOp → TBState
  | TBOp.wait id now => waitForToken id now s
  | TBOp.step now => (processStep o now s).1
  | TBOp.status now => (getStatus o now s).1

/-- Run a sequence of operations. -/
def runOps (o : RateLimiterOptions) : List TBOp → TBState → TBState
  | [], s => s
  | op :: rest, s => runOps o rest (applyOp o s op)

end RateLimiter

namespace GroqHandler

/-- `ModelConfig` (groqApi.ts:12-17): the three model tiers and the per-tier
retry budget. -/
structure ModelConfig where
  primary : String
  fallback : String
  instantFallback : String
  maxRetries : Nat
deriving DecidableEq, Repr

/-- The `chat` configuration (groqApi.ts:821-826). -/
def chatConfig : ModelConfig :=
  { primary := "llama-3.2-90b-text-preview", fallback := "llama-3.1-70b-versatile",
    instantFallback := "llama-3.1-8b-instant", maxRetries := 3 }

/-- The `vision` configuration (groqApi.ts:827-832). -/
def visionConfig : ModelConfig :=
  { primary := "llama-3.2-11b-vision-preview", fallback := "llama-3.2-11b-vision-preview",
    instantFallback := "llama-3.2-11b-vision-preview", maxRetries := 2 }

/-- An error thrown by a completion call; only its message is inspected. -/
structure ApiError where
  message : String
deriving DecidableEq, Repr

/-- Character-list substring test used to embed `String.includes`. -/
def listHasSub (pat : List Char) : List Char → Bool
  | [] => pat.isEmpty
  | c :: rest => pat.isPrefixOf (c :: rest) || listHasSub pat rest

/-- `errorMessage.includes("Rate limit reached")` (groqApi.ts:767): the
capacity-shaped check of the middle `executeWithFallback` variant. -/
def isRateLimitReached (e : ApiError) : Bool :=
  listHasSub "Rate limit reached".data e.message.data

/-- The model list of the env-gated `executeWithFallback` variants
(groqApi.ts:403-407 and 1058-1062): the primary always, the fallback tier only
under `USE_FALLBACK_MODEL`, the instant fallback only under
`USE_INSTANT_FALLBACK`. -/
def modelsFor (config : ModelConfig) (useFallbackModel useInstantFallback : Bool) :
    List String :=
  [config.primary] ++ (if useFallbackModel then [config.fallback] else []) ++
    (if useInstantFallback then [config.instantFallback] else [])

/-- The `for (const model of models)` loop of the env-gated variants
(groqApi.ts:409-418 and 1064-1081): on success return at once, on any error
record it and move to the next model (in the 1064 variant the rate-limit check
only changes the log line). Returns the outcome and the list of models
actually invoked, in invocation order. -/
def runModels (operation : String → Except ApiError α) :
    List String → Option ApiError → Except ApiError α × List String
  | [], lastError =>
      (Except.error (lastError.getD { message := "All attempts failed" }), [])
  | model :: rest, _ =>
      match operation model with
      | Except.ok v => (Except.ok v, [model])
      | Except.error e =>
          let r := runModels operation rest (some e)
          (r.1, model :: r.2)

/-- The env-gated `executeWithFallback` (groqApi.ts:1051-1084, same control
flow as 395-421). -/
def executeWithFallback (operation : String → Except ApiError α)
    (config : ModelConfig) (useFallbackModel useInstantFallback : Bool) :
    Except ApiError α × List String :=
  runModels operation (modelsFor config useFallbackModel useInstantFallback) none

/-- The loop of the middle `executeWithFallback` variant (groqApi.ts:760-781):
on a capacity-shaped error move to the next model, on any other error rethrow
immediately. -/
def runModelsMid (operation : String → Except ApiError α) :
    List String → Option ApiError → Except ApiError α × List String
  | [], lastError =>
      (Except.error (lastError.getD { message := "All models failed" }), [])
  | model :: rest, _ =>
      match operation model with
      | Except.ok v => (Except.ok v, [model])
      | Except.error e =>
          if isRateLimitReached e then
            let r := runModelsMid operation rest (some e)
            (r.1, model :: r.2)
          else (Except.error e, [model])

/-- The middle `executeWithFallback` variant (groqApi.ts:752-784): all three
tiers unconditionally, non-capacity errors rethrown at once. -/
def executeWithFallbackMid (operation : String → Except ApiError α)
    (config : ModelConfig) : Except ApiError α × List String :=
  runModelsMid operation [config.primary, config.fallback, config.instantFallback] none

end GroqHandler

namespace BotInteractionQueue

/-- An entry of the `BotInteractionQueue` queue (BotInteractionQueue.ts:92-96,
part_006:21-26): the deferred interaction is identified by a number, with its
enqueue time and priority. -/
structure QueueItem where
  interactionId : Nat
  timestamp : Int
  priority : Int
deriving DecidableEq, Repr

/-- The sort comparator (BotInteractionQueue.ts:138-143, part_006:72-77):
`a` precedes (or ties with) `b` when `a` has higher priority, or equal
priority and `a` was enqueued no later. -/
def queueLe (a b : QueueItem) : Prop :=
  b.priority < a.priority ∨ (a.priority = b.priority ∧ a.timestamp ≤ b.timestamp)

instance : DecidableRel queueLe := fun a b => by
  unfold queueLe; infer_instance

instance : IsTotal QueueItem queueLe where
  total a b := by
    unfold queueLe
    rcases lt_trichotomy a.priority b.priority with h | h | h
    · exact Or.inr (Or.inl h)
    · rcases le_total a.timestamp b.timestamp with ht | ht
      · exact Or.inl (Or.inr ⟨h, ht⟩)
      · exact Or.inr (Or.inr ⟨h.symm, ht⟩)
    · exact Or.inl (Or.inl h)

instance : IsTrans QueueItem queueLe where
  trans a b c hab hbc := by
    unfold queueLe at *
    rcases hab with h₁ | ⟨h₁, t₁⟩ <;> rcases hbc with h₂ | ⟨h₂, t₂⟩
    · exact Or.inl (h₂.trans h₁)
    · exact Or.inl (h₂ ▸ h₁)
    · exact Or.inl (h₁ ▸ h₂)
    · exact Or.inr ⟨h₁.trans h₂, t₁.trans t₂⟩

/-- `processQueue` (part_006:63-107, single in-flight job): the queue is sorted
once by the comparator — `Array.prototype.sort` is stable, embedded as the
stable insertion sort — and then drained head first, one interaction at a
time. The value is the execution order. -/
def processQueueOrder (queue : List QueueItem) : List QueueItem :=
  List.insertionSort queueLe queue

/-- The observed run order, as interaction ids. -/
def runOrder (queue : List QueueItem) : List Nat :=
  (processQueueOrder queue).map (fun i => i.interactionId)

/-- The three jobs of the C5 scenario, enqueued with priorities `[1, 5, 1]`. -/
def scenarioQueue : List QueueItem :=
  [{ interactionId := 1, timestamp := 0, priority := 1 },
   { interactionId := 2, timestamp := 1, priority := 5 },
   { interactionId := 3, timestamp := 2, priority := 1 }]

end BotInteractionQueue

namespace ContextBuilder

/-- The slice of a discord.js `Message` that `ContextBuilder` reads:
`id`, `content`, `author.id`, `author.username`, `member?.displayName`,
`createdAt` and `reference?.messageId`. -/
structure DiscordMessage where
  id : String
  content : String
  authorId : String
  authorUsername : String
  memberDisplayName : Option String
  createdAt : Int
  referencedMessageId : Option String
deriving DecidableEq, Repr

/-- `member?.displayName || author.username`. -/
def displayName (m : DiscordMessage) : String :=
  m.memberDisplayName.getD m.authorUsername

/-- The record returned by `findReferencedMessage`
(ContextBuilder.ts:150). -/
structure ReferencedView where
  content : String
  images : List ImageAnalysis
  authorId : String
  authorName : String
deriving DecidableEq, Repr

/-- The external single-message fetch together with the
`imageProcessor.processImages` call on its result (ContextBuilder.ts:175-178);
a rejected fetch is `Except.error`. -/
abbrev FetchOne := String → Except Unit (DiscordMessage × List ImageAnalysis)

/-- Modelled from the spec: `ChannelCacheManager.findMessage` is called at
ContextBuilder.ts:162 but its definition is absent from the repository
snapshot (no version of ChannelCacheManager defines it). Spec section 4.3:
`findById(messageId)` is a linear scan across all channels, returning the
first match. -/
def findMessage (caches : ChannelCacheManager.Caches) (messageId : String) :
    Option CachedMessage :=
  match caches with
  | [] => none
  | (_, c) :: rest =>
      match c.messages.find? (fun m => m.id == messageId) with
      | some m => some m
      | none => findMessage rest messageId

/-- `ContextBuilder.findReferencedMessage` (ContextBuilder.ts:147-193):
current message first, then the cross-channel cache scan, then the external
fetch — whose failure is caught, logged and turned into `null` (the
`return null` at line 192). -/
def findReferencedMessage (caches : ChannelCacheManager.Caches)
    (fetchOne : FetchOne) (messageId : String)
    (currentMessage : Option DiscordMessage) : Option ReferencedView :=
  if currentMessage.map (fun c => c.id) = some messageId then
    currentMessage.map (fun c =>
      { content := c.content, images := [], authorId := c.authorId,
        authorName := displayName c })
  else
    match findMessage caches messageId with
    | some m =>
        some { content := m.content, images := m.images, authorId := m.authorId,
               authorName := m.authorName }
    | none =>
        match currentMessage with
        | some _ =>
            match fetchOne messageId with
            | Except.ok (f, images) =>
                some { content := f.content, images := images,
                       authorId := f.authorId, authorName := displayName f }
            | Except.error _ => none
        | none => none

/-- `ContextBuilder.formatMessage` (ContextBuilder.ts:76-122). When the entry
carries a `referencedMessage`, the target is resolved (the current message
when it replies to the same id, `findReferencedMessage` otherwise); a resolved
target prepends the reply quote, an unresolved one leaves the content bare.
The catch branch producing `[Replying to unavailable message]` fires only when
resolution itself throws, which `findReferencedMessage` never does — it
swallows the failed fetch. -/
def formatMessage (caches : ChannelCacheManager.Caches) (fetchOne : FetchOne)
    (msg : CachedMessage) (currentMessage : Option DiscordMessage)
    (isCurrentMessage : Bool) : String :=
  let messageContent :=
    match msg.referencedMessage with
    | none => msg.content
    | some refId =>
        let referencedContent : Option String :=
          if currentMessage.bind (fun c => c.referencedMessageId) = some refId then
            currentMessage.map (fun c => c.content)
          else
            (findReferencedMessage caches fetchOne refId currentMessage).map
              (fun r => r.content)
        match referencedContent with
        | some c => "[Replying to: " ++ c ++ "]: " ++ msg.content
        | none => msg.content
  let userIdentifier := "<@" ++ msg.authorId ++ "> (" ++ msg.authorName ++ ")"
  let msgPre := if isCurrentMessage then ">>> " else ""
  let messageLine := userIdentifier ++ ": " ++ msgPre ++ messageContent
  let imageLines := msg.images.map (fun img => "[Image: " ++ img.lightAnalysis ++ "]")
  String.intercalate "\n" (messageLine :: imageLines)

/-- The timestamp comparator of `buildContext`
(ContextBuilder.ts:35): ascending `timestamp`. -/
def tsLe (a b : CachedMessage) : Prop := a.timestamp ≤ b.timestamp

instance : DecidableRel tsLe := fun a b => by
  unfold tsLe; infer_instance

instance : IsTotal CachedMessage tsLe where
  total a b := le_total a.timestamp b.timestamp

instance : IsTrans CachedMessage tsLe where
  trans _ _ _ hab hbc := le_trans hab hbc

/-- The `sort` call of `buildContext` (ContextBuilder.ts:34-35):
`Array.prototype.sort` is stable, embedded as the stable insertion sort. -/
def sortByTimestamp (msgs : List CachedMessage) : List CachedMessage :=
  List.insertionSort tsLe msgs

/-- JavaScript `arr.slice(-n)`: the last `n` elements — except that
`slice(-0)` is `slice(0)`, the whole array. -/
def sliceLast (l : List α) (n : Nat) : List α :=
  if n = 0 then l else l.drop (l.length - n)

/-- Lines 34-36 of `buildContext`: sort by timestamp ascending, keep the last
`contextSize` entries. -/
def recentMessages (cache : ChannelCache) (contextSize : Nat) :
    List CachedMessage :=
  sliceLast (sortByTimestamp cache.messages) contextSize

/-- The synthetic cache entry built from the current message
(ContextBuilder.ts:44-52). -/
def currentCached (c : DiscordMessage) : CachedMessage :=
  { id := c.id, content := c.content, authorId := c.authorId,
    authorName := displayName c, timestamp := c.createdAt, images := [],
    referencedMessage := c.referencedMessageId }

/-- Lines 31-56 of `buildContext`: the entries that get rendered, in order —
the recent selection, with the current message deduplicated and re-appended at
the end unless excluded. -/
def selectedMessages (cache : ChannelCache)
    (currentMessage : Option DiscordMessage) (contextSize : Nat)
    (excludeCurrentMessage : Bool) : List CachedMessage :=
  let recent := recentMessages cache contextSize
  match currentMessage, excludeCurrentMessage with
  | some c, false =>
      (recent.filter (fun m => m.id != c.id)) ++ [currentCached c]
  | _, _ => recent

/-- Lines 58-68 of `buildContext`: each entry renders through `formatMessage`,
the one whose id matches the current message being preceded by the
`=== Current Message ===` banner element. -/
def contextMessages (caches : ChannelCacheManager.Caches) (fetchOne : FetchOne)
    (cache : ChannelCache) (currentMessage : Option DiscordMessage)
    (contextSize : Nat) (excludeCurrentMessage : Bool) : List String :=
  List.flatten ((selectedMessages cache currentMessage contextSize
      excludeCurrentMessage).map (fun m =>
    let isCur := match currentMessage with
      | some c => m.id == c.id
      | none => false
    let formatted := formatMessage caches fetchOne m currentMessage isCur
    if isCur then ["\n=== Current Message ===", formatted] else [formatted]))

/-- `ContextBuilder.buildContext` (ContextBuilder.ts:25-71). -/
def buildContext (caches : ChannelCacheManager.Caches) (fetchOne : FetchOne)
    (cache : ChannelCache) (currentMessage : Option DiscordMessage)
    (contextSize : Nat) (excludeCurrentMessage : Bool) : String :=
  String.intercalate "\n\n"
    (contextMessages caches fetchOne cache currentMessage contextSize
      excludeCurrentMessage)

/-- C7 failing input: the current message of the scenario. -/
def c7Current : DiscordMessage :=
  { id := "c1", content := "what do you think?", authorId := "u1",
    authorUsername := "alice", memberDisplayName := none, createdAt := 100,
    referencedMessageId := none }

/-- C7 failing input: a cached entry replying to the absent message `r9`. -/
def c7Entry : CachedMessage :=
  { id := "m2", content := "i agree", authorId := "u2", authorName := "bob",
    timestamp := 90, images := [], referencedMessage := some "r9" }

/-- C7 failing input: the caches — no channel holds `r9`. -/
def c7Caches : ChannelCacheManager.Caches :=
  [("chan", { messages := [c7Entry], lastMessageId := none })]

/-- C7 failing input: the external fetch fails. -/
def c7FetchFail : FetchOne := fun _ => Except.error ()

end ContextBuilder

/-! ## Helper lemmas -/

section StableSort

variable {α : Type _} (r : α → α → Prop) [DecidableRel r]

/-- Inserting an element of the filter class at its ordered position puts it in
front of every other member of the class (they all sit at or after the
insertion point, because every element skipped over fails `r a _`). -/
theorem filter_orderedInsert_pos (p : α → Bool) (a : α) (hpa : p a = true)
    (hp : ∀ b, p b = true → r a b) :
    ∀ l : List α, (List.orderedInsert r a l).filter p = a :: l.filter p := by
  intro l
  induction l with
  | nil => simp [List.orderedInsert, hpa]
  | cons b l ih =>
      by_cases hab : r a b
      · simp [List.orderedInsert, if_pos hab, List.filter, hpa]
      · have hpb : p b = false := by
          cases hb : p b with
          | false => rfl
          | true => exact absurd (hp b hb) hab
        simp [List.orderedInsert, if_neg hab, List.filter, hpb, ih]

/-- Inserting an element outside the filter class leaves the class
untouched. -/
theorem filter_orderedInsert_neg (p : α → Bool) (a : α) (hpa : p a = false) :
    ∀ l : List α, (List.orderedInsert r a l).filter p = l.filter p := by
  intro l
  induction l with
  | nil => simp [List.orderedInsert, hpa]
  | cons b l ih =>
      by_cases hab : r a b
      · simp [List.orderedInsert, if_pos hab, List.filter, hpa]
      · cases hb : p b with
        | false => simp [List.orderedInsert, if_neg hab, List.filter, hb, ih]
        | true => simp [List.orderedInsert, if_neg hab, List.filter, hb, ih]

/-- Stability of the insertion sort: any class of elements the comparator
cannot separate (`r` holds within the class) comes out of the sort in its
original relative order. -/
theorem filter_insertionSort (p : α → Bool)
    (hp : ∀ a b, p a = true → p b = true → r a b) :
    ∀ l : List α, (List.insertionSort r l).filter p = l.filter p := by
  intro l
  induction l with
  | nil => rfl
  | cons a l ih =>
      cases ha : p a with
      | true =>
          rw [List.insertionSort,
            filter_orderedInsert_pos r p a ha (fun b hb => hp a b ha hb), ih]
          simp [List.filter, ha]
      | false =>
          rw [List.insertionSort, filter_orderedInsert_neg r p a ha, ih]
          simp [List.filter, ha]

end StableSort

namespace ChannelCacheManager

/-- Reading back through a `Map.set`. -/
theorem cachesGet_cachesSet (cs : Caches) (k : String) (v : ChannelCache)
    (key : String) :
    cachesGet (cachesSet cs k v) key = if k = key then some v else cachesGet cs key := by
  induction cs with
  | nil => by_cases h : k = key <;> simp [cachesSet, cachesGet, h]
  | cons hd tl ih =>
      obtain ⟨k', v'⟩ := hd
      by_cases h : k' = k
      · subst h
        by_cases h2 : k' = key <;> simp [cachesSet, cachesGet, h2]
      · by_cases h2 : k' = key
        · subst h2
          simp only [cachesSet, if_neg h, cachesGet, if_pos rfl]
          have : ¬ k = k' := fun hc => h hc.symm
          simp [if_neg this]
        · simp [cachesSet, if_neg h, cachesGet, if_neg h2, ih]

/-- The updated map and the emitted events of `addMessage`, in terms of the
in-memory `appendEvict` step; neither depends on the persistence outcome. -/
theorem addMessage_caches_events (options : ChannelCacheOptions) (cs : Caches)
    (ch : String) (m : CachedMessage) (r : Except String Unit) :
    (addMessage options cs ch m r).caches =
        cachesSet cs ch (appendEvict options (cacheOrDefault cs ch) ch m).1 ∧
      (addMessage options cs ch m r).events =
        (appendEvict options (cacheOrDefault cs ch) ch m).2 := by
  cases r <;> exact ⟨rfl, rfl⟩

/-- The size maintenance of `appendEvict` keeps the bound. -/
theorem appendEvict_length (options : ChannelCacheOptions)
    (cache : ChannelCache) (ch : String) (m : CachedMessage)
    (h : cache.messages.length ≤ options.maxSize) :
    ((appendEvict options cache ch m).1).messages.length ≤ options.maxSize := by
  unfold appendEvict
  cases hmsgs : cache.messages ++ [m] with
  | nil => simp at hmsgs
  | cons e rest =>
      have hlen : rest.length + 1 = cache.messages.length + 1 := by
        have := congrArg List.length hmsgs
        simpa using this.symm
      by_cases hover : options.maxSize < (cache.messages ++ [m]).length
      · simp only [hmsgs] at hover ⊢
        simp only [if_pos hover]
        simp at hover ⊢
        omega
      · simp only [hmsgs] at hover ⊢
        simp only [if_neg hover]
        simp at hover ⊢
        omega

/-- When the push overflows the bound, the events are exactly the add followed
by the eviction of the head — the earliest-inserted entry. -/
theorem appendEvict_events_overflow (options : ChannelCacheOptions)
    (cache : ChannelCache) (ch : String) (m : CachedMessage)
    (e : CachedMessage) (rest : List CachedMessage)
    (hmsgs : cache.messages = e :: rest)
    (hover : options.maxSize ≤ rest.length + 1) :
    (appendEvict options cache ch m).2 =
      [CacheEvent.messageAdded ch m, CacheEvent.messageRemoved ch e] := by
  unfold appendEvict
  simp only [hmsgs, List.cons_append]
  have hcond : options.maxSize < rest.length + 1 + 1 := by omega
  simp [hcond]

/-- The map produced by `addMessage` keeps every channel within the bound
whenever every channel started within it. -/
theorem addMessage_bounded (options : ChannelCacheOptions) (cs : Caches)
    (ch : String) (m : CachedMessage) (r : Except String Unit)
    (h : ∀ c, (cacheOrDefault cs c).messages.length ≤ options.maxSize) :
    ∀ c, (cacheOrDefault (addMessage options cs ch m r).caches c).messages.length
      ≤ options.maxSize := by
  intro c
  rw [(addMessage_caches_events options cs ch m r).1]
  unfold cacheOrDefault
  rw [cachesGet_cachesSet]
  by_cases hc : ch = c
  · simp only [if_pos hc, Option.getD_some]
    exact appendEvict_length options _ ch m (h ch)
  · simp only [if_neg hc]
    exact h c

/-- The cache bound is preserved over any sequence of appends. -/
theorem applyOps_bounded (options : ChannelCacheOptions) :
    ∀ (ops : List (String × CachedMessage)) (cs : Caches),
      (∀ c, (cacheOrDefault cs c).messages.length ≤ options.maxSize) →
      ∀ c, (cacheOrDefault (applyOps options ops cs) c).messages.length
        ≤ options.maxSize := by
  intro ops
  induction ops with
  | nil => intro cs h c; exact h c
  | cons op rest ih =>
      intro cs h c
      obtain ⟨ch, m⟩ := op
      exact ih _ (addMessage_bounded options cs ch m (Except.ok ()) h) c

end ChannelCacheManager

namespace RequestRateLimiter

/-- The reset never touches the waiter queue. -/
theorem checkMinuteReset_queue (now : Int) (s : RLState) :
    (checkMinuteReset now s).requestQueue = s.requestQueue := by
  unfold checkMinuteReset
  by_cases h : 60000 ≤ now - s.minuteStartTime <;> simp [h]

/-- The reset leaves the state alone inside the window. -/
theorem checkMinuteReset_of_lt (now : Int) (s : RLState)
    (h : now - s.minuteStartTime < 60000) :
    checkMinuteReset now s = s := by
  unfold checkMinuteReset
  rw [if_neg (by omega)]

/-- A burst of `acquire()` calls inside the current window, starting from
counter `c`: the first `maxReq - c` resolve immediately, the rest are queued
in FIFO order behind the existing queue, and the window start never moves. -/
theorem acquireAll_window (maxReq : Nat) (t0 : Int) :
    ∀ (calls : List (Nat × Int)) (c : Nat) (q : List (Nat × Int)),
      c ≤ maxReq →
      (∀ x ∈ calls, t0 ≤ x.2 ∧ x.2 - t0 < 60000) →
      acquireAll maxReq calls ⟨c, t0, q⟩ =
        (⟨min maxReq (c + calls.length), t0, q ++ calls.drop (maxReq - c)⟩,
         (calls.take (maxReq - c)).map Prod.fst,
         (calls.drop (maxReq - c)).map Prod.fst) := by
  intro calls
  induction calls with
  | nil =>
      intro c q hc _
      simp [acquireAll, Nat.min_eq_right hc]
  | cons x rest ih =>
      intro c q hc hin
      obtain ⟨id, now⟩ := x
      have hx := hin (id, now) (List.mem_cons_self _ _)
      have hrest : ∀ y ∈ rest, t0 ≤ y.2 ∧ y.2 - t0 < 60000 :=
        fun y hy => hin y (List.mem_cons_of_mem _ hy)
      have hnoreset : checkMinuteReset now ⟨c, t0, q⟩ = ⟨c, t0, q⟩ :=
        checkMinuteReset_of_lt now ⟨c, t0, q⟩ (by simpa using hx.2)
      by_cases hlt : c < maxReq
      · have hstep : waitForToken maxReq id now ⟨c, t0, q⟩ =
            (⟨c + 1, t0, q⟩, true) := by
          unfold waitForToken
          rw [hnoreset]
          simp [hlt]
        have hrec := ih (c + 1) q (by omega) hrest
        simp only [acquireAll, hstep, hrec]
        have h₁ : maxReq - c = (maxReq - (c + 1)) + 1 := by omega
        have h₂ : min maxReq (c + (rest.length + 1)) =
            min maxReq (c + 1 + rest.length) := by omega
        simp [h₁, List.take, List.drop, h₂]
      · have hceq : c = maxReq := by omega
        have hstep : waitForToken maxReq id now ⟨c, t0, q⟩ =
            (⟨c, t0, q ++ [(id, now)]⟩, false) := by
          unfold waitForToken
          rw [hnoreset]
          simp [hlt]
        have hrec := ih c (q ++ [(id, now)]) hc hrest
        simp only [acquireAll, hstep, hrec]
        have h₁ : maxReq - c = 0 := by omega
        have h₂ : min maxReq (c + (rest.length + 1)) = min maxReq (c + rest.length) := by
          omega
        simp [h₁, h₂, List.append_assoc]

/-- A waiter is granted only after a window rollover once the counter is at
capacity: a grant from a full counter forces the reset to have fired. -/
theorem processStep_granted_rollover (maxReq : Nat) (now : Int) (s : RLState)
    (i : Nat) (hfull : s.requestsThisMinute = maxReq)
    (hgrant : (processStep maxReq now s).2 = some (RLEvent.granted i)) :
    60000 ≤ now - s.minuteStartTime := by
  by_contra hlt
  push_neg at hlt
  have hre : checkMinuteReset now s = s := checkMinuteReset_of_lt now s hlt
  unfold processStep at hgrant
  rcases hq : s.requestQueue with _ | ⟨⟨id, ts⟩, rest⟩ <;>
    simp [hq, hre, hfull] at hgrant

/-- A waiter whose queued duration has reached the five-minute ceiling is
rejected at the head of the queue — dropped without consuming a token. -/
theorem processStep_stale_rejected (maxReq : Nat) (now : Int) (s : RLState)
    (id : Nat) (ts : Int) (rest : List (Nat × Int))
    (hq : s.requestQueue = (id, ts) :: rest)
    (hstale : 300000 ≤ now - ts)
    (havail : (checkMinuteReset now s).requestsThisMinute < maxReq) :
    processStep maxReq now s =
      ({ checkMinuteReset now s with requestQueue := rest },
       some (RLEvent.rejected id)) := by
  unfold processStep
  simp only [hq]
  rw [if_neg (by omega), if_pos hstale]

/-- A grant names a waiter that was in the queue. -/
theorem processStep_granted_mem (maxReq : Nat) (now : Int) (s : RLState)
    (i : Nat) (h : (processStep maxReq now s).2 = some (RLEvent.granted i)) :
    i ∈ s.requestQueue.map Prod.fst := by
  unfold processStep at h
  rcases hq : s.requestQueue with _ | ⟨⟨id, ts⟩, rest⟩
  · simp [hq] at h
  · simp only [hq] at h
    by_cases hcap : maxReq ≤ (checkMinuteReset now s).requestsThisMinute
    · rw [if_pos hcap] at h; simp at h
    · rw [if_neg hcap] at h
      by_cases hstale : 300000 ≤ now - ts
      · rw [if_pos hstale] at h; simp at h
      · rw [if_neg hstale] at h
        simp only [Option.some.injEq, RLEvent.granted.injEq] at h
        exact h ▸ List.mem_map_of_mem Prod.fst (List.mem_cons_self _ _)

/-- The queue after a step is a sub-collection of the queue before it. -/
theorem processStep_queue_mem (maxReq : Nat) (now : Int) (s : RLState)
    (x : Nat × Int) (h : x ∈ (processStep maxReq now s).1.requestQueue) :
    x ∈ s.requestQueue := by
  unfold processStep at h
  rcases hq : s.requestQueue with _ | ⟨⟨id, ts⟩, rest⟩
  · simp [hq] at h
  · simp only [hq] at h
    by_cases hcap : maxReq ≤ (checkMinuteReset now s).requestsThisMinute
    · rw [if_pos hcap] at h
      dsimp only at h
      rwa [checkMinuteReset_queue now s, hq] at h
    · rw [if_neg hcap] at h
      by_cases hstale : 300000 ≤ now - ts
      · rw [if_pos hstale] at h
        dsimp only at h
        exact List.mem_cons_of_mem _ h
      · rw [if_neg hstale] at h
        dsimp only at h
        exact List.mem_cons_of_mem _ h

/-- A waiter that is not in the queue is never granted by any later drain
activity — in particular one rejected for staleness stays rejected. -/
theorem runSteps_no_grant (maxReq : Nat) :
    ∀ (sch : List Int) (s : RLState) (i : Nat),
      i ∉ s.requestQueue.map Prod.fst →
      RLEvent.granted i ∉ (runSteps maxReq sch s).2 := by
  intro sch
  induction sch with
  | nil => intro s i _ h; simp [runSteps] at h
  | cons now later ih =>
      intro s i hout h
      simp only [runSteps, List.mem_append] at h
      rcases h with h | h
      · rcases hev : (processStep maxReq now s).2 with _ | ev
        · rw [hev] at h; simp at h
        · rw [hev] at h
          simp only [Option.toList_some, List.mem_singleton] at h
          subst h
          exact hout (processStep_granted_mem maxReq now s i hev)
      · refine ih (processStep maxReq now s).1 i (fun hmem => hout ?_) h
        rcases List.mem_map.mp hmem with ⟨x, hx, hfx⟩
        exact List.mem_map.mpr ⟨x, processStep_queue_mem maxReq now s x hx, hfx⟩

end RequestRateLimiter

namespace RateLimiter

/-- The refill keeps the token count within `[0, maxTokens]`: the cap bounds it
above, and only a positive number of tokens is ever added. -/
theorem refillTokens_inv (o : RateLimiterOptions) (now : Int) (s : TBState)
    (hmax : 0 ≤ o.maxTokens)
    (h : 0 ≤ s.tokens ∧ s.tokens ≤ o.maxTokens) :
    0 ≤ (refillTokens o now s).tokens ∧
      (refillTokens o now s).tokens ≤ o.maxTokens := by
  unfold refillTokens
  dsimp only
  split
  · next hadd =>
      dsimp only
      refine ⟨le_min hmax ?_, min_le_left _ _⟩
      omega
  · exact h

/-- A drain iteration keeps the token count within `[0, maxTokens]`: the
decrement only fires under the positivity guard. -/
theorem processStep_inv (o : RateLimiterOptions) (now : Int) (s : TBState)
    (hmax : 0 ≤ o.maxTokens)
    (h : 0 ≤ s.tokens ∧ s.tokens ≤ o.maxTokens) :
    0 ≤ (processStep o now s).1.tokens ∧
      (processStep o now s).1.tokens ≤ o.maxTokens := by
  unfold processStep
  rcases hq : s.requestQueue with _ | ⟨⟨id, ts⟩, rest⟩
  · exact h
  · have hr := refillTokens_inv o now s hmax h
    dsimp only
    split
    · exact hr
    · next hpos =>
        split
        · exact hr
        · dsimp only
          omega

/-- Every operation keeps the token count within `[0, maxTokens]`. -/
theorem applyOp_inv (o : RateLimiterOptions) (s : TBState) (op : TBOp)
    (hmax : 0 ≤ o.maxTokens)
    (h : 0 ≤ s.tokens ∧ s.tokens ≤ o.maxTokens) :
    0 ≤ (applyOp o s op).tokens ∧ (applyOp o s op).tokens ≤ o.maxTokens := by
  cases op with
  | wait id now => exact h
  | step now => exact processStep_inv o now s hmax h
  | status now => exact refillTokens_inv o now s hmax h

/-- The invariant carries over any operation sequence. -/
theorem runOps_inv (o : RateLimiterOptions) (hmax : 0 ≤ o.maxTokens) :
    ∀ (ops : List TBOp) (s : TBState),
      0 ≤ s.tokens ∧ s.tokens ≤ o.maxTokens →
      0 ≤ (runOps o ops s).tokens ∧ (runOps o ops s).tokens ≤ o.maxTokens := by
  intro ops
  induction ops with
  | nil => intro s h; exact h
  | cons op rest ih => intro s h; exact ih _ (applyOp_inv o s op hmax h)

end RateLimiter

namespace GroqHandler

/-- When every model before `m` fails and `m` succeeds, the loop returns the
success of `m` and invokes exactly the models up to and including `m` — none
after it. -/
theorem runModels_ok_split {α : Type _} (op : String → Except ApiError α) :
    ∀ (pre : List String) (m : String) (suf : List String) (v : α)
      (last : Option ApiError),
      (∀ x ∈ pre, ∃ e, op x = Except.error e) → op m = Except.ok v →
      runModels op (pre ++ m :: suf) last = (Except.ok v, pre ++ [m]) := by
  intro pre
  induction pre with
  | nil =>
      intro m suf v last _ hm
      simp [runModels, hm]
  | cons x rest ih =>
      intro m suf v last hpre hm
      obtain ⟨e, he⟩ := hpre x (List.mem_cons_self _ _)
      have hrest : ∀ y ∈ rest, ∃ e, op y = Except.error e :=
        fun y hy => hpre y (List.mem_cons_of_mem _ hy)
      simp only [List.cons_append, runModels, he, List.append_eq]
      rw [ih m suf v (some e) hrest hm]

/-- The invocation trace of the loop is an initial segment of the model list —
every model is invoked at most once, in list order. -/
theorem runModels_trace_take {α : Type _} (op : String → Except ApiError α) :
    ∀ (ms : List String) (last : Option ApiError),
      (runModels op ms last).2 = ms.take (runModels op ms last).2.length := by
  intro ms
  induction ms with
  | nil => intro last; simp [runModels]
  | cons m rest ih =>
      intro last
      cases hm : op m with
      | ok v => simp [runModels, hm]
      | error e =>
          simp only [runModels, hm]
          rw [List.length_cons, List.take_succ_cons]
          exact congrArg _ (ih (some e))

/-- `maxRetries` plays no role in the env-gated loop: two configurations that
differ only in it produce the same outcome and the same trace. -/
theorem executeWithFallback_maxRetries_irrel {α : Type _}
    (op : String → Except ApiError α) (p f i : String) (n₁ n₂ : Nat)
    (uf ui : Bool) :
    executeWithFallback op ⟨p, f, i, n₁⟩ uf ui =
      executeWithFallback op ⟨p, f, i, n₂⟩ uf ui := rfl

/-- `maxRetries` plays no role in the rate-limit-only loop either. -/
theorem executeWithFallbackMid_maxRetries_irrel {α : Type _}
    (op : String → Except ApiError α) (p f i : String) (n₁ n₂ : Nat) :
    executeWithFallbackMid op ⟨p, f, i, n₁⟩ =
      executeWithFallbackMid op ⟨p, f, i, n₂⟩ := rfl

/-- The rate-limit-only loop aborts on a non-capacity failure of the primary:
the error is rethrown at once and no other tier is invoked — in particular the
primary is not retried. -/
theorem executeWithFallbackMid_aborts {α : Type _}
    (op : String → Except ApiError α) (config : ModelConfig) (e : ApiError)
    (hop : op config.primary = Except.error e)
    (hnr : isRateLimitReached e = false) :
    executeWithFallbackMid op config = (Except.error e, [config.primary]) := by
  unfold executeWithFallbackMid runModelsMid
  simp [hop, hnr]

end GroqHandler

namespace ContextBuilder

/-- Without a current message the rendered entries are exactly the recent
selection. -/
theorem selectedMessages_none (cache : ChannelCache) (n : Nat) (b : Bool) :
    selectedMessages cache none n b = recentMessages cache n := by
  cases b <;> rfl

/-- Without a current message `buildContext` renders the recent selection
element-wise, in order. -/
theorem contextMessages_none (caches : ChannelCacheManager.Caches)
    (fetchOne : FetchOne) (cache : ChannelCache) (n : Nat) (b : Bool) :
    contextMessages caches fetchOne cache none n b =
      (recentMessages cache n).map
        (fun m => formatMessage caches fetchOne m none false) := by
  unfold contextMessages
  rw [selectedMessages_none]
  generalize recentMessages cache n = l
  induction l with
  | nil => rfl
  | cons m rest ih => simpa using ih

/-- The recent selection is sorted by timestamp. -/
theorem recentMessages_sorted (cache : ChannelCache) (n : Nat) :
    List.Sorted tsLe (recentMessages cache n) := by
  have hs : List.Sorted tsLe (sortByTimestamp cache.messages) :=
    List.sorted_insertionSort tsLe cache.messages
  unfold recentMessages sliceLast
  split
  · exact hs
  · exact List.Pairwise.sublist (List.drop_sublist _ _) hs

end ContextBuilder

/-! ## Claim theorems -/

set_option maxRecDepth 8000 in
/-- C1: after any sequence of appends every channel cache holds at most
`maxSize` messages; an append that overflows the bound evicts exactly the
earliest-inserted entry (the head), emitting the add and the eviction; and the
concrete scenario — empty cache, `N = 20`, appending `m1..m25` — leaves
exactly `m6..m25` in insertion order. -/
theorem C1_cache_bound_fifo_eviction :
    (∀ (options : ChannelCacheOptions) (ops : List (String × CachedMessage))
        (ch : String),
        (ChannelCacheManager.cacheOrDefault
            (ChannelCacheManager.applyOps options ops []) ch).messages.length
          ≤ options.maxSize) ∧
    (∀ (options : ChannelCacheOptions) (cs : ChannelCacheManager.Caches)
        (ch : String) (m e : CachedMessage) (rest : List CachedMessage),
        (ChannelCacheManager.cacheOrDefault cs ch).messages = e :: rest →
        options.maxSize ≤ rest.length + 1 →
        (ChannelCacheManager.addMessage options cs ch m (Except.ok ())).events =
          [CacheEvent.messageAdded ch m, CacheEvent.messageRemoved ch e]) ∧
    (ChannelCacheManager.cacheOrDefault
        (ChannelCacheManager.applyOps ⟨20⟩ ChannelCacheManager.scenarioOps [])
        "chan" =
      { messages := (List.range 20).map (fun i => ChannelCacheManager.mkMsg (i + 6)),
        lastMessageId := none }) := by
  refine ⟨?_, ?_, ?_⟩
  · intro options ops ch
    refine ChannelCacheManager.applyOps_bounded options ops [] ?_ ch
    intro c
    simp [ChannelCacheManager.cacheOrDefault, ChannelCacheManager.cachesGet]
  · intro options cs ch m e rest hmsgs hover
    rw [(ChannelCacheManager.addMessage_caches_events options cs ch m
      (Except.ok ())).2]
    exact ChannelCacheManager.appendEvict_events_overflow options _ ch m e rest
      hmsgs hover
  · decide

/-- C1 witness: the bound at a concrete input, and a concrete overflowing
append (bound 1, one cached entry) whose events are the add of `m2` followed
by the eviction of the earliest entry `m1`. -/
theorem C1_cache_bound_fifo_eviction_witness :
    (ChannelCacheManager.cacheOrDefault
        (ChannelCacheManager.applyOps ⟨2⟩
          [("c", ChannelCacheManager.mkMsg 1)] []) "c").messages.length ≤ 2 ∧
    (ChannelCacheManager.addMessage ⟨1⟩
        [("c", { messages := [ChannelCacheManager.mkMsg 1], lastMessageId := none })]
        "c" (ChannelCacheManager.mkMsg 2) (Except.ok ())).events =
      [CacheEvent.messageAdded "c" (ChannelCacheManager.mkMsg 2),
       CacheEvent.messageRemoved "c" (ChannelCacheManager.mkMsg 1)] := by
  constructor
  · exact C1_cache_bound_fifo_eviction.1 ⟨2⟩ [("c", ChannelCacheManager.mkMsg 1)] "c"
  · exact C1_cache_bound_fifo_eviction.2.1 ⟨1⟩
      [("c", { messages := [ChannelCacheManager.mkMsg 1], lastMessageId := none })]
      "c" (ChannelCacheManager.mkMsg 2) (ChannelCacheManager.mkMsg 1) []
      (by decide) (by decide)

/-- C9: the in-memory append — cache update, bound maintenance and event
emission — is unconditional on the persistence call: it is identical whatever
the save outcome; the caller always gets a normal completion (`ok ()`); and a
save failure is logged while the already-applied in-memory append stands. -/
theorem C9_append_not_gated_on_persistence :
    (∀ (options : ChannelCacheOptions) (cs : ChannelCacheManager.Caches)
        (ch : String) (m : CachedMessage) (r₁ r₂ : Except String Unit),
        (ChannelCacheManager.addMessage options cs ch m r₁).caches =
          (ChannelCacheManager.addMessage options cs ch m r₂).caches ∧
        (ChannelCacheManager.addMessage options cs ch m r₁).events =
          (ChannelCacheManager.addMessage options cs ch m r₂).events) ∧
    (∀ (options : ChannelCacheOptions) (cs : ChannelCacheManager.Caches)
        (ch : String) (m : CachedMessage) (r : Except String Unit),
        (ChannelCacheManager.addMessage options cs ch m r).outcome =
          Except.ok ()) ∧
    (∀ (options : ChannelCacheOptions) (cs : ChannelCacheManager.Caches)
        (ch : String) (m : CachedMessage) (err : String),
        (ChannelCacheManager.addMessage options cs ch m
            (Except.error err)).persistErrorLogged = true ∧
        (ChannelCacheManager.addMessage options cs ch m
            (Except.error err)).caches =
          ChannelCacheManager.cachesSet cs ch
            (ChannelCacheManager.appendEvict options
              (ChannelCacheManager.cacheOrDefault cs ch) ch m).1) := by
  refine ⟨?_, ?_, ?_⟩
  · intro options cs ch m r₁ r₂
    cases r₁ <;> cases r₂ <;> exact ⟨rfl, rfl⟩
  · intro options cs ch m r
    cases r <;> rfl
  · intro options cs ch m err
    exact ⟨rfl, rfl⟩

/-- C2: a burst of `K + 1` `acquire()` calls inside one window admits exactly
the first `K` immediately and leaves the last one queued FIFO; a waiter is
granted from a full counter only after the window rolls over; a waiter whose
queued duration has reached the five-minute ceiling is rejected with the
rate-limit error, consuming no token; and a waiter no longer in the queue is
never granted by any later drain activity. -/
theorem C2_burst_admission_and_ceiling :
    (∀ (maxReq : Nat) (t0 : Int) (calls : List (Nat × Int)),
        calls.length = maxReq + 1 →
        (∀ x ∈ calls, t0 ≤ x.2 ∧ x.2 - t0 < 60000) →
        RequestRateLimiter.acquireAll maxReq calls ⟨0, t0, []⟩ =
          (⟨maxReq, t0, calls.drop maxReq⟩,
           (calls.take maxReq).map Prod.fst,
           (calls.drop maxReq).map Prod.fst)) ∧
    (∀ (maxReq : Nat) (now : Int) (s : RequestRateLimiter.RLState) (i : Nat),
        s.requestsThisMinute = maxReq →
        (RequestRateLimiter.processStep maxReq now s).2 =
          some (RLEvent.granted i) →
        60000 ≤ now - s.minuteStartTime) ∧
    (∀ (maxReq : Nat) (now : Int) (s : RequestRateLimiter.RLState)
        (id : Nat) (ts : Int) (rest : List (Nat × Int)),
        s.requestQueue = (id, ts) :: rest →
        300000 ≤ now - ts →
        (RequestRateLimiter.checkMinuteReset now s).requestsThisMinute < maxReq →
        RequestRateLimiter.processStep maxReq now s =
          ({ RequestRateLimiter.checkMinuteReset now s with requestQueue := rest },
           some (RLEvent.rejected id))) ∧
    (∀ (maxReq : Nat) (sch : List Int) (s : RequestRateLimiter.RLState) (i : Nat),
        i ∉ s.requestQueue.map Prod.fst →
        RLEvent.granted i ∉ (RequestRateLimiter.runSteps maxReq sch s).2) := by
  refine ⟨?_, ?_, ?_, ?_⟩
  · intro maxReq t0 calls hlen hin
    have h := RequestRateLimiter.acquireAll_window maxReq t0 calls 0 []
      (Nat.zero_le _) hin
    rw [hlen] at h
    simpa [Nat.min_eq_left (Nat.le_succ maxReq)] using h
  · exact RequestRateLimiter.processStep_granted_rollover
  · exact RequestRateLimiter.processStep_stale_rejected
  · exact RequestRateLimiter.runSteps_no_grant

/-- C2 witness: with capacity 2, the burst `[(1,0), (2,5), (3,10)]` admits
callers 1 and 2 immediately and queues caller 3; a grant out of a full counter
at time 60005 indeed lies past the rollover; the waiter `(9, -300000)`
processed at time 0 is rejected; and caller 7, absent from the queue, is
granted by no drain schedule. -/
theorem C2_burst_admission_and_ceiling_witness :
    (RequestRateLimiter.acquireAll 2 [(1, 0), (2, 5), (3, 10)] ⟨0, 0, []⟩ =
      (⟨2, 0, [(3, 10)]⟩, [1, 2], [3])) ∧
    (60000 : Int) ≤ 60005 - 0 ∧
    (RequestRateLimiter.processStep 2 0 ⟨0, 0, [(9, -300000)]⟩ =
      (⟨0, 0, []⟩, some (RLEvent.rejected 9))) ∧
    RLEvent.granted 7 ∉
      (RequestRateLimiter.runSteps 2 [0, 1] ⟨0, 0, [(9, -300000)]⟩).2 := by
  refine ⟨?_, ?_, ?_, ?_⟩
  · exact C2_burst_admission_and_ceiling.1 2 0 [(1, 0), (2, 5), (3, 10)]
      (by decide) (by decide)
  · exact C2_burst_admission_and_ceiling.2.1 2 60005 ⟨2, 0, [(8, 2)]⟩ 8
      (by decide) (by decide)
  · exact C2_burst_admission_and_ceiling.2.2.1 2 0 ⟨0, 0, [(9, -300000)]⟩
      9 (-300000) [] (by decide) (by decide) (by decide)
  · exact C2_burst_admission_and_ceiling.2.2.2 2 [0, 1] ⟨0, 0, [(9, -300000)]⟩ 7
      (by decide)

/-- C8: the counter is reset exactly when the elapsed time since the window
start crosses a window boundary — below the boundary the state is untouched —
and on every reset the window start advances by a whole multiple of the window
length, leaving a nonnegative residual elapsed time strictly inside the new
window, so repeated resets accumulate no drift. -/
theorem C8_window_reset_no_drift :
    ∀ (now : Int) (s : RequestRateLimiter.RLState),
      (now - s.minuteStartTime < 60000 →
        RequestRateLimiter.checkMinuteReset now s = s) ∧
      (60000 ≤ now - s.minuteStartTime →
        (RequestRateLimiter.checkMinuteReset now s).requestsThisMinute = 0 ∧
        (RequestRateLimiter.checkMinuteReset now s).minuteStartTime =
          s.minuteStartTime + 60000 * ((now - s.minuteStartTime) / 60000) ∧
        0 ≤ now - (RequestRateLimiter.checkMinuteReset now s).minuteStartTime ∧
        now - (RequestRateLimiter.checkMinuteReset now s).minuteStartTime
          < 60000) := by
  intro now s
  constructor
  · exact RequestRateLimiter.checkMinuteReset_of_lt now s
  · intro h
    have hd := Int.ediv_add_emod (now - s.minuteStartTime) 60000
    have h0 : 0 ≤ (now - s.minuteStartTime) % 60000 :=
      Int.emod_nonneg _ (by norm_num)
    have h1 : (now - s.minuteStartTime) % 60000 < 60000 :=
      Int.emod_lt_of_pos _ (by norm_num)
    unfold RequestRateLimiter.checkMinuteReset
    rw [if_pos (by omega)]
    refine ⟨rfl, ?_, ?_, ?_⟩ <;> dsimp only <;> omega

/-- C8 witness: at time 130000 from window start 0 the reset fires — counter
zeroed, window start advanced to 120000 (two whole windows), residual 10000
inside the new window — while at time 10 nothing changes. -/
theorem C8_window_reset_no_drift_witness :
    (RequestRateLimiter.checkMinuteReset 10 ⟨5, 0, []⟩ =
      (⟨5, 0, []⟩ : RequestRateLimiter.RLState)) ∧
    (RequestRateLimiter.checkMinuteReset 130000 ⟨5, 0, []⟩).requestsThisMinute = 0 ∧
    (RequestRateLimiter.checkMinuteReset 130000 ⟨5, 0, []⟩).minuteStartTime =
      0 + 60000 * ((130000 - 0) / 60000) := by
  refine ⟨?_, ?_, ?_⟩
  · exact (C8_window_reset_no_drift 10 ⟨5, 0, []⟩).1 (by decide)
  · exact ((C8_window_reset_no_drift 130000 ⟨5, 0, []⟩).2 (by decide)).1
  · exact ((C8_window_reset_no_drift 130000 ⟨5, 0, []⟩).2 (by decide)).2.1

/-- C3: the model list is `primary`, then `fallback`, then `instantFallback` —
exactly that list when both env flags are on, and always an order-preserving
selection from it — and whenever every earlier model fails and one succeeds,
its success is returned at once with no later model invoked. -/
theorem C3_fixed_order_short_circuit :
    (∀ config : GroqHandler.ModelConfig,
        GroqHandler.modelsFor config true true =
          [config.primary, config.fallback, config.instantFallback]) ∧
    (∀ (config : GroqHandler.ModelConfig) (uf ui : Bool),
        (GroqHandler.modelsFor config uf ui).Sublist
          [config.primary, config.fallback, config.instantFallback]) ∧
    (∀ (α : Type) (op : String → Except GroqHandler.ApiError α)
        (config : GroqHandler.ModelConfig) (pre : List String) (m : String)
        (suf : List String) (v : α),
        GroqHandler.modelsFor config true true = pre ++ m :: suf →
        (∀ x ∈ pre, ∃ e, op x = Except.error e) →
        op m = Except.ok v →
        GroqHandler.executeWithFallback op config true true =
          (Except.ok v, pre ++ [m])) := by
  refine ⟨fun config => rfl, ?_, ?_⟩
  · intro config uf ui
    cases uf <;> cases ui
    · exact List.cons_sublist_cons.2 (List.nil_sublist _)
    · exact List.cons_sublist_cons.2 (List.sublist_cons_self _ _)
    · exact List.cons_sublist_cons.2 (List.cons_sublist_cons.2 (List.nil_sublist _))
    · exact List.Sublist.refl _
  · intro α op config pre m suf v hsplit hpre hm
    unfold GroqHandler.executeWithFallback
    rw [hsplit]
    exact GroqHandler.runModels_ok_split op pre m suf v none hpre hm

/-- C3 witness: a primary that fails with a non-capacity error and a fallback
that succeeds — the router returns the fallback success having invoked exactly
the primary and the fallback, never the instant fallback. -/
theorem C3_fixed_order_short_circuit_witness :
    GroqHandler.executeWithFallback
        (fun s => if s = "llama-3.1-70b-versatile" then Except.ok 1
                  else Except.error { message := "boom" })
        GroqHandler.chatConfig true true =
      (Except.ok 1, ["llama-3.2-90b-text-preview", "llama-3.1-70b-versatile"]) :=
  C3_fixed_order_short_circuit.2.2 Nat
    (fun s => if s = "llama-3.1-70b-versatile" then Except.ok 1
              else Except.error { message := "boom" })
    GroqHandler.chatConfig ["llama-3.2-90b-text-preview"]
    "llama-3.1-70b-versatile" ["llama-3.1-8b-instant"] 1
    (by decide)
    (fun x hx => ⟨{ message := "boom" }, by rw [List.mem_singleton.mp hx]; rfl⟩)
    rfl

/-- C4 counterexample: with the chat configuration (`maxRetries = 3`) and a
tier that keeps failing with the non-capacity error `boom`, the claimed
behaviour — invoke the failing tier `1 + maxRetries` (or at least twice)
before moving on — does not happen: the env-gated router invokes the primary
exactly once before moving on, and the groqApi.ts:752 variant invokes it once
and rethrows without moving on at all. -/
theorem C4_counterexample_no_retry :
    GroqHandler.chatConfig.maxRetries = 3 ∧
    (GroqHandler.executeWithFallback
        (fun _ => (Except.error { message := "boom" } :
          Except GroqHandler.ApiError Nat))
        GroqHandler.chatConfig true true).2.count GroqHandler.chatConfig.primary
      = 1 ∧
    GroqHandler.executeWithFallbackMid
        (fun _ => (Except.error { message := "boom" } :
          Except GroqHandler.ApiError Nat))
        GroqHandler.chatConfig =
      (Except.error { message := "boom" }, [GroqHandler.chatConfig.primary]) :=
  ⟨rfl, by decide, rfl⟩

/-- C4 amended: `maxRetries` is declared in `ModelConfig` but never consulted —
the router behaves identically for any value of it; a model is invoked at most
once per call, the invocation trace being an initial segment of the model
list; and on a non-capacity failure of the primary the groqApi.ts:752 variant
returns that error at once, invoking no other tier. -/
theorem C4_amended_no_retry :
    (∀ (α : Type) (op : String → Except GroqHandler.ApiError α) (p f i : String)
        (n₁ n₂ : Nat) (uf ui : Bool),
        GroqHandler.executeWithFallback op ⟨p, f, i, n₁⟩ uf ui =
          GroqHandler.executeWithFallback op ⟨p, f, i, n₂⟩ uf ui ∧
        GroqHandler.executeWithFallbackMid op ⟨p, f, i, n₁⟩ =
          GroqHandler.executeWithFallbackMid op ⟨p, f, i, n₂⟩) ∧
    (∀ (α : Type) (op : String → Except GroqHandler.ApiError α)
        (ms : List String) (last : Option GroqHandler.ApiError),
        (GroqHandler.runModels op ms last).2 =
          ms.take (GroqHandler.runModels op ms last).2.length) ∧
    (∀ (α : Type) (op : String → Except GroqHandler.ApiError α)
        (config : GroqHandler.ModelConfig) (e : GroqHandler.ApiError),
        op config.primary = Except.error e →
        GroqHandler.isRateLimitReached e = false →
        GroqHandler.executeWithFallbackMid op config =
          (Except.error e, [config.primary])) := by
  refine ⟨?_, ?_, ?_⟩
  · intro α op p f i n₁ n₂ uf ui
    exact ⟨GroqHandler.executeWithFallback_maxRetries_irrel op p f i n₁ n₂ uf ui,
           GroqHandler.executeWithFallbackMid_maxRetries_irrel op p f i n₁ n₂⟩
  · intro α op ms last
    exact GroqHandler.runModels_trace_take op ms last
  · intro α op config e hop hnr
    exact GroqHandler.executeWithFallbackMid_aborts op config e hop hnr

/-- C4 amended witness: a constantly failing operation with the non-capacity
error `timeout` makes the groqApi.ts:752 router return that error after a
single invocation of the vision primary. -/
theorem C4_amended_no_retry_witness :
    GroqHandler.executeWithFallbackMid
        (fun _ => (Except.error { message := "timeout" } :
          Except GroqHandler.ApiError Nat))
        GroqHandler.visionConfig =
      (Except.error { message := "timeout" }, [GroqHandler.visionConfig.primary]) :=
  C4_amended_no_retry.2.2 Nat
    (fun _ => (Except.error { message := "timeout" } :
      Except GroqHandler.ApiError Nat))
    GroqHandler.visionConfig { message := "timeout" } rfl (by decide)

/-- C5: the drain order of the dispatch queue is sorted by priority descending
with ties by enqueue time ascending, is a permutation of the queue, is stable
on exact ties (equal priority and equal timestamp keep their enqueue order),
and the scenario — priorities `[1, 5, 1]` under one-at-a-time processing —
runs the priority-5 job first, then the two priority-1 jobs in enqueue
order. -/
theorem C5_priority_then_fifo :
    (∀ q : List BotInteractionQueue.QueueItem,
        List.Sorted BotInteractionQueue.queueLe
          (BotInteractionQueue.processQueueOrder q)) ∧
    (∀ q : List BotInteractionQueue.QueueItem,
        (BotInteractionQueue.processQueueOrder q).Perm q) ∧
    (∀ (q : List BotInteractionQueue.QueueItem) (p t : Int),
        (BotInteractionQueue.processQueueOrder q).filter
            (fun x => x.priority == p && x.timestamp == t) =
          q.filter (fun x => x.priority == p && x.timestamp == t)) ∧
    BotInteractionQueue.runOrder BotInteractionQueue.scenarioQueue = [2, 1, 3] := by
  refine ⟨?_, ?_, ?_, by decide⟩
  · intro q
    exact List.sorted_insertionSort BotInteractionQueue.queueLe q
  · intro q
    exact List.perm_insertionSort BotInteractionQueue.queueLe q
  · intro q p t
    refine filter_insertionSort BotInteractionQueue.queueLe _ ?_ q
    intro a b ha hb
    simp only [Bool.and_eq_true, beq_iff_eq] at ha hb
    exact Or.inr ⟨ha.1.trans hb.1.symm, le_of_eq (ha.2.trans hb.2.symm)⟩

/-- C6: the transcript selection is sorted by timestamp ascending; the sort is
a stable permutation of the cached messages (entries with equal timestamps
keep insertion order); for a positive window it keeps exactly the last
`windowSize` entries of the sorted list; and `buildContext` renders exactly
that selection, element-wise in that order. -/
theorem C6_transcript_timestamp_ascending :
    (∀ (cache : ChannelCache) (n : Nat),
        List.Sorted ContextBuilder.tsLe (ContextBuilder.recentMessages cache n)) ∧
    (∀ msgs : List CachedMessage,
        (ContextBuilder.sortByTimestamp msgs).Perm msgs) ∧
    (∀ (msgs : List CachedMessage) (t : Int),
        (ContextBuilder.sortByTimestamp msgs).filter (fun m => m.timestamp == t) =
          msgs.filter (fun m => m.timestamp == t)) ∧
    (∀ (cache : ChannelCache) (n : Nat), 0 < n →
        ContextBuilder.recentMessages cache n =
          (ContextBuilder.sortByTimestamp cache.messages).drop
            ((ContextBuilder.sortByTimestamp cache.messages).length - n) ∧
        (ContextBuilder.recentMessages cache n).length =
          min n cache.messages.length) ∧
    (∀ (caches : ChannelCacheManager.Caches)
        (fetchOne : ContextBuilder.FetchOne) (cache : ChannelCache)
        (n : Nat) (b : Bool),
        ContextBuilder.buildContext caches fetchOne cache none n b =
          String.intercalate "\n\n" ((ContextBuilder.recentMessages cache n).map
            (fun m => ContextBuilder.formatMessage caches fetchOne m none false))) := by
  refine ⟨?_, ?_, ?_, ?_, ?_⟩
  · exact ContextBuilder.recentMessages_sorted
  · intro msgs
    exact List.perm_insertionSort ContextBuilder.tsLe msgs
  · intro msgs t
    refine filter_insertionSort ContextBuilder.tsLe _ ?_ msgs
    intro a b ha hb
    simp only [beq_iff_eq] at ha hb
    exact le_of_eq (ha.trans hb.symm)
  · intro cache n hn
    have hlen : (ContextBuilder.sortByTimestamp cache.messages).length =
        cache.messages.length :=
      (List.perm_insertionSort ContextBuilder.tsLe cache.messages).length_eq
    constructor
    · unfold ContextBuilder.recentMessages ContextBuilder.sliceLast
      rw [if_neg (by omega)]
    · unfold ContextBuilder.recentMessages ContextBuilder.sliceLast
      rw [if_neg (by omega), List.length_drop]
      omega
  · intro caches fetchOne cache n b
    unfold ContextBuilder.buildContext
    rw [ContextBuilder.contextMessages_none]

/-- C6 witness: two cached entries stored out of timestamp order, window 1 —
the selection is the final element of the sorted list and has length
`min 1 2`. -/
theorem C6_transcript_timestamp_ascending_witness :
    ContextBuilder.recentMessages
        ⟨[ChannelCacheManager.mkMsg 2, ChannelCacheManager.mkMsg 1], none⟩ 1 =
      (ContextBuilder.sortByTimestamp
          [ChannelCacheManager.mkMsg 2, ChannelCacheManager.mkMsg 1]).drop
        ((ContextBuilder.sortByTimestamp
          [ChannelCacheManager.mkMsg 2, ChannelCacheManager.mkMsg 1]).length - 1) ∧
    (ContextBuilder.recentMessages
        ⟨[ChannelCacheManager.mkMsg 2, ChannelCacheManager.mkMsg 1], none⟩
        1).length =
      min 1 [ChannelCacheManager.mkMsg 2, ChannelCacheManager.mkMsg 1].length :=
  C6_transcript_timestamp_ascending.2.2.2.1
    ⟨[ChannelCacheManager.mkMsg 2, ChannelCacheManager.mkMsg 1], none⟩ 1
    (by decide)

/-- C7: at the failing input — entry `m2` replying to `r9`, which is not the
current message, in no channel cache, and whose fetch fails — the rendered
entry is the bare `<@u2> (bob): i agree`: `findReferencedMessage` swallows the
failed fetch into `none`, so the reply relationship is silently dropped and
the `[Replying to unavailable message]` sentinel demanded by the claim (and
produced by both earlier ContextBuilder revisions) never appears. -/
theorem C7_fetch_failure_drops_reply_marker :
    ContextBuilder.formatMessage ContextBuilder.c7Caches ContextBuilder.c7FetchFail
        ContextBuilder.c7Entry (some ContextBuilder.c7Current) false =
      "<@u2> (bob): i agree" ∧
    ContextBuilder.findReferencedMessage ContextBuilder.c7Caches
        ContextBuilder.c7FetchFail "r9" (some ContextBuilder.c7Current) = none ∧
    ContextBuilder.formatMessage ContextBuilder.c7Caches ContextBuilder.c7FetchFail
        ContextBuilder.c7Entry (some ContextBuilder.c7Current) false ≠
      "<@u2> (bob): [Replying to unavailable message]: i agree" := by
  refine ⟨?_, ?_, ?_⟩ <;> decide

/-- C10: over any operation sequence from the initial full bucket, the token
count stays within `[0, maxTokens]` — the refill caps at the maximum and the
drain decrements only under the positivity guard. -/
theorem C10_token_count_bounds :
    ∀ (o : RateLimiter.RateLimiterOptions) (ops : List RateLimiter.TBOp)
      (start : Int),
      0 ≤ o.maxTokens →
      0 ≤ (RateLimiter.runOps o ops (RateLimiter.initState o start)).tokens ∧
      (RateLimiter.runOps o ops (RateLimiter.initState o start)).tokens
        ≤ o.maxTokens := by
  intro o ops start hmax
  exact RateLimiter.runOps_inv o hmax ops _ ⟨hmax, le_refl _⟩

/-- C10 witness: a concrete mix of enqueues, drain steps (including one after
a long idle period, exercising the refill cap) and status reads keeps the
count within `[0, 5]`. -/
theorem C10_token_count_bounds_witness :
    0 ≤ (RateLimiter.runOps ⟨2, 10, 5⟩
        [RateLimiter.TBOp.wait 1 0, RateLimiter.TBOp.step 3,
         RateLimiter.TBOp.wait 2 4, RateLimiter.TBOp.step 400000,
         RateLimiter.TBOp.status 400010]
        (RateLimiter.initState ⟨2, 10, 5⟩ 0)).tokens ∧
    (RateLimiter.runOps ⟨2, 10, 5⟩
        [RateLimiter.TBOp.wait 1 0, RateLimiter.TBOp.step 3,
         RateLimiter.TBOp.wait 2 4, RateLimiter.TBOp.step 400000,
         RateLimiter.TBOp.status 400010]
        (RateLimiter.initState ⟨2, 10, 5⟩ 0)).tokens ≤ 5 :=
  C10_token_count_bounds ⟨2, 10, 5⟩
    [RateLimiter.TBOp.wait 1 0, RateLimiter.TBOp.step 3,
     RateLimiter.TBOp.wait 2 4, RateLimiter.TBOp.step 400000,
     RateLimiter.TBOp.status 400010] 0 (by decide)

end Smol
